import Mathlib

/-!
Verification of the GD-search bot (src/bot.js).

The development shallowly embeds the JavaScript code of bot.js: JSON values
become the inductive type JVal, JavaScript numbers arising from coercions
become JNum (a finite rational, NaN, or a signed infinity; JSON itself can
only denote finite numbers, so JVal stores a rational), and code that can
throw a TypeError returns Except Unit.  Machine floats are modelled as exact
rationals; every scenario checked here is far away from any rounding
boundary.  Each definition carries a pointer to the source lines it embeds.
-/

/-- A parsed JSON value, the shape of every payload bot.js manipulates.
JSON cannot express NaN, infinities or undefined, so numbers are rationals;
absence of a property is modelled with Option elsewhere. -/
inductive JVal where
  | null : JVal
  | bool : Bool → JVal
  | num : ℚ → JVal
  | str : String → JVal
  | arr : List JVal → JVal
  | obj : List (String × JVal) → JVal

/-- A JavaScript number as produced by the Number(...) coercion: a finite
rational, NaN, or one of the two infinities. -/
inductive JNum where
  | fin : ℚ → JNum
  | nan : JNum
  | posInf : JNum
  | negInf : JNum
deriving DecidableEq

/-- Truthiness: the JavaScript falsy JSON values are null, false, 0 and the
empty string (NaN and undefined cannot occur inside parsed JSON). -/
def jFalsy : JVal → Bool
  | .null => true
  | .bool b => !b
  | .num q => q == 0
  | .str s => s.data.isEmpty
  | .arr _ => false
  | .obj _ => false

/-- Negation of jFalsy. -/
def jTruthy (v : JVal) : Bool := !jFalsy v

/-- Whether the in operator may be applied to the value without throwing:
JavaScript only allows it on objects, and arrays are objects. -/
def objLike : JVal → Bool
  | .obj _ => true
  | .arr _ => true
  | _ => false

/-! Character-level helpers.  bot.js uses String.prototype.split, trim,
toLowerCase and includes; they are embedded here as structural recursions
over the character list of the string so that every concrete run reduces
inside the kernel. -/

/-- Split a character list at every occurrence of the separator, the
behaviour of String.prototype.split with a one-character separator:
an empty input yields one empty token. -/
def splitOnChar (sep : Char) : List Char → List (List Char)
  | [] => [[]]
  | c :: rest =>
    let r := splitOnChar sep rest
    if c = sep then [] :: r
    else
      match r with
      | t :: ts => (c :: t) :: ts
      | [] => [[c]]

/-- Strip leading and trailing whitespace, the behaviour of
String.prototype.trim on the ASCII whitespace that occurs in practice. -/
def trimWs (l : List Char) : List Char :=
  ((l.dropWhile Char.isWhitespace).reverse.dropWhile Char.isWhitespace).reverse

/-- Value of a list of decimal digit characters. -/
def digitsToNat (l : List Char) : ℕ :=
  l.foldl (fun a c => 10 * a + (c.toNat - 48)) 0

/-- Longest leading run of decimal digits, together with the remainder. -/
def takeDigits : List Char → List Char × List Char
  | [] => ([], [])
  | c :: rest =>
    if c.isDigit then
      let p := takeDigits rest
      (c :: p.1, p.2)
    else ([], c :: rest)

/-- Canonical decimal array-index reading of a key, used by the embedding of
property lookup on arrays: "0", "1", ... (no leading zeros). -/
def decIndex : List Char → Option ℕ
  | [] => none
  | ['0'] => some 0
  | '0' :: _ => none
  | l => if l.all Char.isDigit then some (digitsToNat l) else none

/-- Value of a hexadecimal digit character, if it is one. -/
def hexDigit (c : Char) : Option ℕ :=
  if c.isDigit then some (c.toNat - 48)
  else if 'a' ≤ c ∧ c ≤ 'f' then some (c.toNat - 87)
  else if 'A' ≤ c ∧ c ≤ 'F' then some (c.toNat - 55)
  else none

/-- Value of an octal digit character, if it is one. -/
def octDigit (c : Char) : Option ℕ :=
  if '0' ≤ c ∧ c ≤ '7' then some (c.toNat - 48) else none

/-- Value of a binary digit character, if it is one. -/
def binDigit (c : Char) : Option ℕ :=
  if c = '0' then some 0 else if c = '1' then some 1 else none

/-- Read a whole character list as digits of the given radix; none when the
list is empty or contains a foreign character. -/
def parseRadix (radix : ℕ) (digit : Char → Option ℕ) : List Char → Option ℕ
  | [] => none
  | l => go l 0
where
  go : List Char → ℕ → Option ℕ
  | [], acc => some acc
  | c :: rest, acc =>
    match digit c with
    | some d => go rest (radix * acc + d)
    | none => none

/-- Read an optionally signed all-digit list, the exponent part of a decimal
numeric literal. -/
def parseSignedDigits : List Char → Option ℤ
  | '+' :: rest => if rest ≠ [] ∧ rest.all Char.isDigit then some (digitsToNat rest) else none
  | '-' :: rest => if rest ≠ [] ∧ rest.all Char.isDigit then some (-(digitsToNat rest : ℤ)) else none
  | l => if l ≠ [] ∧ l.all Char.isDigit then some (digitsToNat l) else none

/-- Attach an optional exponent part to a parsed mantissa; the remainder must
be empty or a complete exponent, otherwise the literal is invalid. -/
def withExp (q : ℚ) : List Char → Option ℚ
  | [] => some q
  | 'e' :: rest =>
    match parseSignedDigits rest with
    | some e => some (q * (10 : ℚ) ^ e)
    | none => none
  | 'E' :: rest =>
    match parseSignedDigits rest with
    | some e => some (q * (10 : ℚ) ^ e)
    | none => none
  | _ => none

/-- Value of an unsigned decimal literal body: digits, an optional fraction,
an optional exponent; the whole list must be consumed (otherwise the JS
conversion yields NaN, reported here as none). -/
def parseDecBody (l : List Char) : Option ℚ :=
  let p := takeDigits l
  match p.2 with
  | '.' :: r2 =>
    let f := takeDigits r2
    if p.1 = [] ∧ f.1 = [] then none
    else withExp ((digitsToNat p.1 : ℚ) + mantissaFrac f.1) f.2
  | _ =>
    if p.1 = [] then none else withExp (digitsToNat p.1 : ℚ) p.2
where
  /-- Value contributed by the fractional digit list. -/
  mantissaFrac (fr : List Char) : ℚ :=
    if fr = [] then 0 else (digitsToNat fr : ℚ) / (10 : ℚ) ^ fr.length

/-- Unsigned body of a string numeric literal: Infinity, a 0x / 0o / 0b
radix literal, or a decimal literal. -/
def jsUnsignedBody (l : List Char) : JNum :=
  if l = "Infinity".data then .posInf
  else
    match l with
    | '0' :: c :: r =>
      if c = 'x' ∨ c = 'X' then
        match parseRadix 16 hexDigit r with
        | some n => .fin n
        | none => .nan
      else if c = 'o' ∨ c = 'O' then
        match parseRadix 8 octDigit r with
        | some n => .fin n
        | none => .nan
      else if c = 'b' ∨ c = 'B' then
        match parseRadix 2 binDigit r with
        | some n => .fin n
        | none => .nan
      else
        match parseDecBody l with
        | some q => .fin q
        | none => .nan
    | _ =>
      match parseDecBody l with
      | some q => .fin q
      | none => .nan

/-- The JavaScript Number(string) coercion on a character list: trim, empty
means 0, an optional sign followed by Infinity or a decimal literal, or an
unsigned radix literal; anything else is NaN. -/
def jsStringToNumberL (raw : List Char) : JNum :=
  let l := trimWs raw
  match l with
  | [] => .fin 0
  | '+' :: rest =>
    if rest = "Infinity".data then .posInf
    else
      match parseDecBody rest with
      | some q => .fin q
      | none => .nan
  | '-' :: rest =>
    if rest = "Infinity".data then .negInf
    else
      match parseDecBody rest with
      | some q => .fin (-q)
      | none => .nan
  | _ => jsUnsignedBody l

/-- Number(string) on a Lean string. -/
def jsStringToNumber (s : String) : JNum := jsStringToNumberL s.data

/-- The JavaScript Number(value) coercion on a non-undefined JSON value.
Arrays coerce through their joined string form: empty array to 0, a single
primitive element like that element, anything with a comma (two or more
elements) to NaN; plain objects render as a bracketed tag and give NaN.
A nested one-element array of arrays is approximated by NaN (such shapes
never carry the numeric fields probed by bot.js). -/
def jsToNumberJ : JVal → JNum
  | .null => .fin 0
  | .bool true => .fin 1
  | .bool false => .fin 0
  | .num q => .fin q
  | .str s => jsStringToNumber s
  | .obj _ => .nan
  | .arr [] => .fin 0
  | .arr [v] =>
    match v with
    | .null => .fin 0
    | .num q => .fin q
    | .str s => jsStringToNumber s
    | .bool _ => .nan
    | .arr _ => .nan
    | .obj _ => .nan
  | .arr _ => .nan

/-- Strict equality between two JavaScript numbers: NaN equals nothing,
including itself. -/
def jnStrictEq : JNum → JNum → Bool
  | .fin a, .fin b => a == b
  | .posInf, .posInf => true
  | .negInf, .negInf => true
  | _, _ => false

/-- The JavaScript comparison a less than b: false whenever either side is
NaN. -/
def jnLt : JNum → JNum → Bool
  | .fin a, .fin b => a < b
  | .fin _, .posInf => true
  | .negInf, .fin _ => true
  | .negInf, .posInf => true
  | _, _ => false

/-- The JavaScript comparison a greater than b. -/
def jnGt (a b : JNum) : Bool := jnLt b a

/-- The JavaScript comparison a greater than or equal to b: false whenever
either side is NaN. -/
def jnGe : JNum → JNum → Bool
  | .nan, _ => false
  | _, .nan => false
  | .fin a, .fin b => b ≤ a
  | .posInf, _ => true
  | .negInf, .negInf => true
  | .negInf, _ => false
  | .fin _, .negInf => true
  | .fin _, .posInf => false

/-! Property lookup and the tryGet helper (bot.js lines 45-62). -/

/-- First binding of a key in an object literal; payloads produced by
JSON.parse carry distinct keys, so first and last bindings coincide. -/
def lookupField : List (String × JVal) → String → Option JVal
  | [], _ => none
  | (k2, v) :: rest, k => if k2 = k then some v else lookupField rest k

/-- Property access obj[k] on a JSON value, returning none for undefined.
On arrays the own properties are the element indices and length; on strings
only length is modelled (bot.js never probes character positions); inherited
prototype properties are not modelled because no probed key collides with
one. -/
def jGetProp : JVal → String → Option JVal
  | .obj fs, k => lookupField fs k
  | .arr xs, k =>
    if k = "length" then some (.num xs.length)
    else
      match decIndex k.data with
      | some i => xs.get? i
      | none => none
  | .str s, k => if k = "length" then some (.num s.data.length) else none
  | _, _ => none

/-- Whether a key is a dotted nested path (line 50 of bot.js). -/
def hasDot (k : String) : Bool := k.data.contains '.'

/-- Parts of a dotted key, the split on line 51 of bot.js. -/
def dotParts (k : String) : List String :=
  (splitOnChar '.' k.data).map (fun l => ⟨l⟩)

/-- The nested walk of tryGet (bot.js lines 52-58): follow the path parts;
a falsy intermediate stops the walk with no result, the in operator on a
truthy primitive throws, and a null end value yields no result. -/
def dotWalk : JVal → List String → Except Unit (Option JVal)
  | cur, [] =>
    match cur with
    | .null => .ok none
    | _ => .ok (some cur)
  | cur, p :: rest =>
    if jFalsy cur then .ok none
    else if objLike cur = false then .error ()
    else
      match jGetProp cur p with
      | none => .ok none
      | some v => dotWalk v rest

/-- One iteration of the tryGet loop for a single key on a truthy receiver
(bot.js lines 48-59): the in operator throws on a truthy primitive; a
present non-null value is returned; otherwise a dotted key is probed as a
nested path. -/
def tryGetStep (obj : JVal) (k : String) : Except Unit (Option JVal) :=
  if objLike obj = false then .error ()
  else
    match jGetProp obj k with
    | some v =>
      match v with
      | .null => if hasDot k then dotWalk obj (dotParts k) else .ok none
      | _ => .ok (some v)
    | none => if hasDot k then dotWalk obj (dotParts k) else .ok none

/-- The tryGet helper of bot.js (lines 45-62) over its list of candidate
keys: falsy receivers are skipped, the first key that yields a non-null
value returns it, and a TypeError thrown by the in operator propagates. -/
def tryGetList (obj : JVal) : List String → Except Unit (Option JVal)
  | [] => .ok none
  | k :: rest =>
    if jFalsy obj then tryGetList obj rest
    else
      match tryGetStep obj k with
      | .error e => .error e
      | .ok (some v) => .ok (some v)
      | .ok none => tryGetList obj rest

/-! Field extractors (bot.js lines 64-114). -/

/-- Key candidates for the level id of a search item (bot.js line 73). -/
def levelIdKeys : List String :=
  ["online_id", "id", "level_id", "levelID", "levelId", "onlineId"]

/-- The extractLevelIdFromSearchItem helper (bot.js lines 71-74): tryGet
over the id keys, with a falsy result collapsed to null by the trailing
or-null (the caller then skips falsy ids, line 196). -/
def extractLevelIdFromSearchItem (item : JVal) : Except Unit (Option JVal) :=
  match tryGetList item levelIdKeys with
  | .error e => .error e
  | .ok none => .ok none
  | .ok (some v) => .ok (if jFalsy v then none else some v)

/-- Key candidates for the object count (bot.js lines 77-88). -/
def objCountKeys : List String :=
  ["objects", "object_count", "objectCount", "cache_objects",
   "cache_object_count", "metadata.objects", "meta.objects"]

/-- The extractObjectCount helper (bot.js lines 77-88). -/
def extractObjectCount (detail : JVal) : Except Unit (Option JVal) :=
  tryGetList detail objCountKeys

/-- Key candidates for the length in seconds (bot.js lines 93-103). -/
def lenKeys : List String :=
  ["length_seconds", "lengthSeconds", "length", "cache_length",
   "cache_real_length", "meta.lengthSeconds", "meta.length",
   "metadata.lengthSeconds", "metadata.length"]

/-- First decimal number found in a character list, the regex match on
line 109 of bot.js: the first maximal digit run, with a fractional part
only when a dot is directly followed by another digit. -/
def firstDecimal : List Char → Option ℚ
  | [] => none
  | c :: rest =>
    if c.isDigit then
      let p := takeDigits (c :: rest)
      match p.2 with
      | '.' :: r2 =>
        let f := takeDigits r2
        if f.1 = [] then some (digitsToNat p.1 : ℚ)
        else some ((digitsToNat p.1 : ℚ) + (digitsToNat f.1 : ℚ) / (10 : ℚ) ^ f.1.length)
      | _ => some (digitsToNat p.1 : ℚ)
    else firstDecimal rest

/-- Loop body of extractLengthSeconds (bot.js lines 104-112): probe each
candidate key with tryGet; a numeric value is returned as is, a string is
searched for its first decimal number, anything else moves on. -/
def lengthLoop (detail : JVal) : List String → Except Unit (Option ℚ)
  | [] => .ok none
  | c :: rest =>
    match tryGetList detail [c] with
    | .error e => .error e
    | .ok none => lengthLoop detail rest
    | .ok (some v) =>
      match v with
      | .num q => .ok (some q)
      | .str s =>
        match firstDecimal s.data with
        | some q => .ok (some q)
        | none => lengthLoop detail rest
      | _ => lengthLoop detail rest

/-- The extractLengthSeconds helper (bot.js lines 91-114). -/
def extractLengthSeconds (detail : JVal) : Except Unit (Option ℚ) :=
  lengthLoop detail lenKeys

/-- The parseIdList helper (bot.js lines 65-68): split on commas, trim each
token, drop empty tokens, coerce with Number and keep only finite results. -/
def parseIdList (raw : String) : List ℚ :=
  if raw = "" then []
  else
    ((((splitOnChar ',' raw.data).map trimWs).filter
        (fun t => !t.isEmpty)).map jsStringToNumberL).filterMap
      (fun n => match n with | .fin q => some q | _ => none)

/-! Locating the candidate list in the search response
(bot.js lines 133-146). -/

/-- Secondary key candidates probed for the list (bot.js line 139). -/
def searchListKeys : List String := ["levels", "items", "rows"]

/-- First of the given keys whose property value on the body is an array. -/
def firstArrKey (json : JVal) : List String → Option (List JVal)
  | [] => none
  | k :: rest =>
    match jGetProp json k with
    | some (.arr xs) => some xs
    | _ => firstArrKey json rest

/-- First array in a list of values. -/
def firstArrVal : List JVal → Option (List JVal)
  | [] => none
  | v :: rest =>
    match v with
    | .arr xs => some xs
    | _ => firstArrVal rest

/-- The Object.values enumeration of a JSON value: field values of an
object, elements of an array, one-character strings for a string, nothing
for the remaining primitives (null would throw, but the embedding of the
response handling rejects null before reaching this point). -/
def jValues : JVal → List JVal
  | .obj fs => fs.map Prod.snd
  | .arr xs => xs
  | .str s => s.data.map (fun c => .str ⟨[c]⟩)
  | _ => []

/-- The response-shape probing of gdh_searchLevelsAdvanced (bot.js lines
133-146): a top-level array is returned directly; otherwise the fields
results and data, then levels, items and rows are probed; then the first
array among the direct Object.values of the body; otherwise the empty list.
A null body throws a TypeError at the first property access. -/
def locateList (json : JVal) : Except Unit (List JVal) :=
  match json with
  | .arr xs => .ok xs
  | .null => .error ()
  | _ =>
    match jGetProp json "results" with
    | some (.arr xs) => .ok xs
    | _ =>
      match jGetProp json "data" with
      | some (.arr xs) => .ok xs
      | _ =>
        match firstArrKey json searchListKeys with
        | some xs => .ok xs
        | none =>
          match firstArrVal (jValues json) with
          | some xs => .ok xs
          | none => .ok []

/-! The search and filter pipeline (bot.js lines 172-274). -/

/-- The parsed filter options consumed by findLevelsWithFilters (bot.js
lines 173-183 and 367-377).  maxObjects none models the Infinity default;
exactObjects and exactLengthSeconds none model null; difficulty none models
null (the command handler turns an absent or empty option into null).
The query, length category and limit only shape the remote request and the
number of candidates fetched, which enter the embedding as the explicit
searchItems list. -/
structure FilterSpec where
  exactObjects : Option ℚ := none
  minObjects : ℚ := 0
  maxObjects : Option ℚ := none
  requiredObjectIds : List ℚ := []
  exactLengthSeconds : Option ℚ := none
  difficulty : Option String := none

/-- Normalisation of an extracted count value (bot.js line 207): a number is
kept, any other truthy value goes through Number, a falsy value becomes
null. -/
def normalizeCount : Option JVal → Option JNum
  | none => none
  | some (.num q) => some (.fin q)
  | some v => if jFalsy v then none else some (jsToNumberJ v)

/-- The object-count filter (bot.js lines 211-218): with exactObjects set
and a non-null count, strict equality is required; otherwise a non-null
count must lie between minObjects and maxObjects; a null count passes. -/
def objectCountCheck (exactObjects : Option ℚ) (minObjects : ℚ)
    (maxObjects : Option ℚ) (c : Option JNum) : Bool :=
  match exactObjects, c with
  | some k, some n => jnStrictEq n (.fin k)
  | _, _ =>
    match c with
    | some n =>
      !(jnLt n (.fin minObjects)) &&
        !(jnGt n (match maxObjects with | some m => JNum.fin m | none => JNum.posInf))
    | none => true

/-- Key candidates for the constituent-object list (bot.js line 223). -/
def objKeys : List String :=
  ["object_list", "objects_list", "objects_data", "objectData", "objects"]

/-- Key candidates for the id of one constituent object (bot.js line 226). -/
def idKeys : List String := ["id", "object_id", "objectId"]

/-- Short-circuiting Array.prototype.every with a callback that may throw. -/
def exceptAll (f : α → Except Unit Bool) : List α → Except Unit Bool
  | [] => .ok true
  | x :: xs =>
    match f x with
    | .error e => .error e
    | .ok false => .ok false
    | .ok true => exceptAll f xs

/-- Short-circuiting Array.prototype.some with a callback that may throw. -/
def exceptAny (f : α → Except Unit Bool) : List α → Except Unit Bool
  | [] => .ok false
  | x :: xs =>
    match f x with
    | .error e => .error e
    | .ok true => .ok true
    | .ok false => exceptAny f xs

/-- The id comparison inside the required-object-ids filter (bot.js line
226): Number of the tryGet result (Number(null) is 0) strictly equal to
Number of the requested id, which parseIdList guarantees finite. -/
def objIdMatches (req : ℚ) (o : JVal) : Except Unit Bool :=
  match tryGetList o idKeys with
  | .error e => .error e
  | .ok r =>
    let n : JNum :=
      match r with
      | none => .fin 0
      | some v => jsToNumberJ v
    .ok (jnStrictEq n (.fin req))

/-- The required-object-ids filter (bot.js lines 222-232): with a non-empty
id list, a constituent-object array must be found and every requested id
must match some element; a non-array (or absent) value rejects. -/
def requiredIdsCheck (ids : List ℚ) (lvlObj : JVal) : Except Unit Bool :=
  match ids with
  | [] => .ok true
  | _ :: _ =>
    match tryGetList lvlObj objKeys with
    | .error e => .error e
    | .ok (some (.arr xs)) =>
      exceptAll (fun req => exceptAny (fun o => objIdMatches req o) xs) ids
    | .ok _ => .ok false

/-- The exact-length filter (bot.js lines 235-238): with exactLengthSeconds
set, a null length rejects, and a known length must be within 0.3 seconds. -/
def exactLengthCheck (exact : Option ℚ) (lenSecNum : Option ℚ) : Bool :=
  match exact with
  | none => true
  | some e =>
    match lenSecNum with
    | none => false
    | some l => decide (|l - e| ≤ 3 / 10)

/-- Key candidates for the numeric difficulty (bot.js line 243). -/
def diffKeys : List String :=
  ["cache_filter_difficulty", "difficulty", "level_difficulty", "difficulty_id"]

/-- Key candidates for the textual difficulty (bot.js line 253). -/
def diffTextKeys : List String :=
  ["difficulty_text", "difficultyName", "difficultyString"]

/-- The difficulty label map of bot.js line 242. -/
def diffMap (w : String) : Option ℚ :=
  if w = "easy" then some 1
  else if w = "normal" then some 2
  else if w = "hard" then some 3
  else if w = "harder" then some 4
  else if w = "insane" then some 5
  else if w = "demon" then some 6
  else none

/-- ASCII lowering of a string, the String.prototype.toLowerCase calls on
lines 245, 246 and 254 of bot.js. -/
def lowerStr (s : String) : String := ⟨s.data.map Char.toLower⟩

/-- Whether the character list contains the demon marker dem. -/
def listHasDem : List Char → Bool
  | 'd' :: 'e' :: 'm' :: _ => true
  | _ :: rest => listHasDem rest
  | [] => false

/-- Whether String(v).toLowerCase() contains the marker dem (bot.js line
254).  Only strings can carry the marker among realistic difficulty-text
payloads: numbers and booleans render as digits or true / false; the
renderings of arrays and objects are approximated as lacking the marker. -/
def jTextHasDem : JVal → Bool
  | .str s => listHasDem (lowerStr s).data
  | _ => false

/-- The difficulty filter (bot.js lines 241-262).  A null or empty label
skips the filter.  The numeric difficulty is read with tryGet before the
label is inspected, so a TypeError thrown there propagates even for the
auto label; a falsy extracted value (including the number 0) leaves the
numeric difficulty null.  The demon label requires a numeric difficulty of
at least 6 when one exists, otherwise falls back to the textual difficulty;
the remaining labels require strict equality with their mapped code when a
numeric difficulty exists, and pass permissively otherwise. -/
def difficultyCheck (difficulty : Option String) (lvlObj : JVal) : Except Unit Bool :=
  match difficulty with
  | none => .ok true
  | some s =>
    if s = "" then .ok true
    else
      match tryGetList lvlObj diffKeys with
      | .error e => .error e
      | .ok levelDiff =>
        let levelDiffNum : Option JNum :=
          match levelDiff with
          | none => none
          | some v => if jFalsy v then none else some (jsToNumberJ v)
        let wanted := lowerStr s
        if wanted = "auto" then .ok true
        else if wanted = "demon" then
          match levelDiffNum with
          | some n => .ok (jnGe n (.fin 6))
          | none =>
            match tryGetList lvlObj diffTextKeys with
            | .error e => .error e
            | .ok none => .ok true
            | .ok (some t) => .ok (!(jTruthy t && !jTextHasDem t))
        else
          match levelDiffNum, diffMap wanted with
          | some n, some k => .ok (jnStrictEq n (.fin k))
          | _, _ => .ok true

/-- Second step of the unwrapping on bot.js line 202: the data field when
truthy, otherwise the detail itself. -/
def jLvlObjData (detail : JVal) : JVal :=
  match jGetProp detail "data" with
  | some d => if jTruthy d then d else detail
  | none => detail

/-- Unwrapping of the fetched detail payload (bot.js line 202): the level
or data field when truthy, otherwise the detail itself. -/
def jLvlObj (detail : JVal) : JVal :=
  if jFalsy detail then detail
  else
    match jGetProp detail "level" with
    | some l => if jTruthy l then l else jLvlObjData detail
    | none => jLvlObjData detail

/-- A match pushed by the pipeline (bot.js line 264). -/
structure MatchRec where
  levelId : JVal
  searchItem : JVal
  detail : JVal
  objectCount : Option JNum
  lengthSeconds : Option ℚ

/-- Body of one iteration of the pipeline loop (bot.js lines 194-265),
before the surrounding catch: extract and normalise the fields, run the
four filter checks in order, and build the match record.  A thrown
TypeError or a failed detail fetch surfaces as an error. -/
def processItemE (opts : FilterSpec) (fetch : JVal → Except Unit JVal)
    (item : JVal) : Except Unit (Option MatchRec) :=
  match extractLevelIdFromSearchItem item with
  | .error e => .error e
  | .ok none => .ok none
  | .ok (some levelId) =>
    match fetch levelId with
    | .error e => .error e
    | .ok detail =>
      match extractObjectCount (jLvlObj detail) with
      | .error e => .error e
      | .ok objCount =>
        match extractLengthSeconds (jLvlObj detail) with
        | .error e => .error e
        | .ok lenSec =>
          if objectCountCheck opts.exactObjects opts.minObjects opts.maxObjects
              (normalizeCount objCount) = false then .ok none
          else
            match requiredIdsCheck opts.requiredObjectIds (jLvlObj detail) with
            | .error e => .error e
            | .ok false => .ok none
            | .ok true =>
              if exactLengthCheck opts.exactLengthSeconds lenSec = false then .ok none
              else
                match difficultyCheck opts.difficulty (jLvlObj detail) with
                | .error e => .error e
                | .ok false => .ok none
                | .ok true =>
                  .ok (some ⟨levelId, item, jLvlObj detail, normalizeCount objCount, lenSec⟩)

/-- One iteration of the pipeline loop with its catch (bot.js lines 194-270):
any per-candidate failure is logged and the candidate skipped. -/
def processItem (opts : FilterSpec) (fetch : JVal → Except Unit JVal)
    (item : JVal) : Option MatchRec :=
  match processItemE opts fetch item with
  | .ok r => r
  | .error _ => none

/-- Accumulator step of the pipeline loop: push the match when the
candidate produced one, keep the accumulator otherwise. -/
def pushMatch (g : α → Option β) (acc : List β) (x : α) : List β :=
  match g x with
  | some m => acc ++ [m]
  | none => acc

/-- The pipeline of findLevelsWithFilters (bot.js lines 191-273) over an
already-fetched list of search items, abstracting the per-id detail fetch
as a function that either returns a payload or fails. -/
def findLevelsWithFilters (opts : FilterSpec) (fetch : JVal → Except Unit JVal)
    (searchItems : List JVal) : List MatchRec :=
  searchItems.foldl (pushMatch (processItem opts fetch)) []

/-! The pagination session (bot.js lines 381-408). -/

/-- The fixed page size (bot.js line 381). -/
def perPage : ℕ := 5

/-- Total pages (bot.js line 382): Math.max(1, Math.ceil(length / 5)), with
the ceiling of the float division written as an exact natural division. -/
def totalPages (L : ℕ) : ℕ := max 1 ((L + perPage - 1) / perPage)

/-- One navigation transition of the collector (bot.js lines 402-403): the
two ifs run in order, clamping prev at 0 and next at the last page; any
other custom id leaves the page unchanged. -/
def collectStep (tp : ℤ) (page : ℤ) (customId : String) : ℤ :=
  let p1 := if customId = "prev_page" then max 0 (page - 1) else page
  if customId = "next_page" then min (tp - 1) (p1 + 1) else p1

/-- Outcome of one collected button interaction: either the ephemeral
rejection notice for a non-owner, or a committed page update. -/
inductive CollectReply where
  | notForYou : CollectReply
  | pageUpdate : CollectReply
deriving DecidableEq

/-- The collect handler (bot.js lines 397-408): a user other than the
originating requester receives the ephemeral notice and the page is left
untouched; the owner navigates with the clamped transition. -/
def handleCollect (ownerId userId : String) (tp page : ℤ)
    (customId : String) : ℤ × CollectReply :=
  if userId ≠ ownerId then (page, .notForYou)
  else (collectStep tp page customId, .pageUpdate)

/-! Shared lemmas about the pipeline. -/

/-- Folding the push of the pipeline loop accumulates exactly the
filterMap of the per-item processing. -/
theorem foldl_push_eq_filterMap (g : α → Option β) (l : List α) :
    ∀ acc, l.foldl (pushMatch g) acc = acc ++ l.filterMap g := by
  induction l with
  | nil => simp
  | cons x xs ih =>
    intro acc
    cases hx : g x <;> simp [List.filterMap_cons, pushMatch, hx, ih]

/-- The pipeline returns exactly the matches of the candidates it could
process, in order. -/
theorem findLevels_eq_filterMap (opts : FilterSpec)
    (fetch : JVal → Except Unit JVal) (items : List JVal) :
    findLevelsWithFilters opts fetch items
      = items.filterMap (processItem opts fetch) := by
  simpa [findLevelsWithFilters] using
    foldl_push_eq_filterMap (processItem opts fetch) items []

/-- A successful short-circuiting every means every element succeeded. -/
theorem exceptAll_ok_true {f : α → Except Unit Bool} :
    ∀ {xs : List α}, exceptAll f xs = .ok true → ∀ x ∈ xs, f x = .ok true := by
  intro xs
  induction xs with
  | nil => intro _ x hx; cases hx
  | cons y ys ih =>
    intro h x hx
    rw [exceptAll] at h
    cases hf : f y with
    | error e => rw [hf] at h; cases h
    | ok b =>
      cases b with
      | false => rw [hf] at h; cases h
      | true =>
        rw [hf] at h
        rcases List.mem_cons.mp hx with rfl | hmem
        · exact hf
        · exact ih h x hmem

/-- A successful short-circuiting some means some element succeeded. -/
theorem exceptAny_ok_true {f : α → Except Unit Bool} :
    ∀ {xs : List α}, exceptAny f xs = .ok true → ∃ x ∈ xs, f x = .ok true := by
  intro xs
  induction xs with
  | nil => intro h; cases h
  | cons y ys ih =>
    intro h
    rw [exceptAny] at h
    cases hf : f y with
    | error e => rw [hf] at h; cases h
    | ok b =>
      cases b with
      | true => exact ⟨y, List.mem_cons_self y ys, hf⟩
      | false =>
        rw [hf] at h
        obtain ⟨x, hx, hfx⟩ := ih h
        exact ⟨x, List.mem_cons_of_mem y hx, hfx⟩

/-- Inversion of a passed required-object-ids filter with a non-empty id
list: a constituent-object array was found and every requested id matched
some element of it. -/
theorem requiredIdsCheck_ok_true {ids : List ℚ} {lvlObj : JVal}
    (hne : ids ≠ []) (h : requiredIdsCheck ids lvlObj = .ok true) :
    ∃ xs, tryGetList lvlObj objKeys = .ok (some (.arr xs)) ∧
      ∀ req ∈ ids, ∃ o ∈ xs, objIdMatches req o = .ok true := by
  cases ids with
  | nil => exact absurd rfl hne
  | cons i is =>
    rw [requiredIdsCheck] at h
    cases hg : tryGetList lvlObj objKeys with
    | error e => rw [hg] at h; cases h
    | ok r =>
      rw [hg] at h
      match r, h with
      | some (.arr xs), h =>
        refine ⟨xs, rfl, fun req hreq => ?_⟩
        have := exceptAll_ok_true h req hreq
        exact exceptAny_ok_true this
      | none, h => cases h
      | some .null, h => cases h
      | some (.bool b), h => cases h
      | some (.num q), h => cases h
      | some (.str s), h => cases h
      | some (.obj fs), h => cases h

/-- Inversion of a produced match: every stage of the per-candidate body
succeeded, every filter passed, and the match record carries the extracted
fields. -/
theorem processItem_some {opts : FilterSpec} {fetch : JVal → Except Unit JVal}
    {item : JVal} {m : MatchRec} (h : processItem opts fetch item = some m) :
    ∃ lid detail oc ls,
      extractLevelIdFromSearchItem item = .ok (some lid) ∧
      fetch lid = .ok detail ∧
      extractObjectCount (jLvlObj detail) = .ok oc ∧
      extractLengthSeconds (jLvlObj detail) = .ok ls ∧
      objectCountCheck opts.exactObjects opts.minObjects opts.maxObjects
        (normalizeCount oc) = true ∧
      requiredIdsCheck opts.requiredObjectIds (jLvlObj detail) = .ok true ∧
      exactLengthCheck opts.exactLengthSeconds ls = true ∧
      difficultyCheck opts.difficulty (jLvlObj detail) = .ok true ∧
      m = ⟨lid, item, jLvlObj detail, normalizeCount oc, ls⟩ := by
  rw [processItem] at h
  cases hE : processItemE opts fetch item with
  | error e => rw [hE] at h; cases h
  | ok r =>
    rw [hE] at h
    subst h
    rw [processItemE] at hE
    split at hE
    · exact Except.noConfusion hE
    · simp at hE
    · rename_i lid h1
      split at hE
      · exact Except.noConfusion hE
      · rename_i detail h2
        split at hE
        · exact Except.noConfusion hE
        · rename_i oc h3
          split at hE
          · exact Except.noConfusion hE
          · rename_i ls h4
            split at hE
            · simp at hE
            · rename_i h5
              split at hE
              · exact Except.noConfusion hE
              · simp at hE
              · rename_i h6
                split at hE
                · simp at hE
                · rename_i h7
                  split at hE
                  · exact Except.noConfusion hE
                  · simp at hE
                  · rename_i h8
                    cases hE
                    exact ⟨lid, detail, oc, ls, h1, h2, h3, h4,
                      Bool.not_eq_false _ |>.mp (by simpa using h5), h6,
                      Bool.not_eq_false _ |>.mp (by simpa using h7), h8, rfl⟩

/-- The integer ceiling of L / perPage agrees with the natural division
used to embed Math.ceil. -/
theorem ceil_div_perPage (L : ℕ) :
    ⌈(L : ℚ) / (perPage : ℚ)⌉ = (((L + perPage - 1) / perPage : ℕ) : ℤ) := by
  have hq : ((perPage : ℕ) : ℚ) = 5 := by norm_num [perPage]
  have hp : perPage = 5 := rfl
  rw [hq, hp]
  set n : ℕ := (L + 5 - 1) / 5 with hn
  have h1 : L ≤ 5 * n := by omega
  have h2 : 5 * n < L + 5 := by omega
  rw [Int.ceil_eq_iff]
  constructor
  · rw [lt_div_iff₀ (by norm_num : (0:ℚ) < 5)]
    have hc : ((5 * n : ℕ) : ℚ) < ((L + 5 : ℕ) : ℚ) := by exact_mod_cast h2
    push_cast at hc ⊢
    linarith
  · rw [div_le_iff₀ (by norm_num : (0:ℚ) < 5)]
    have hc : ((L : ℕ) : ℚ) ≤ ((5 * n : ℕ) : ℚ) := by exact_mod_cast h1
    push_cast at hc ⊢
    linarith

/-- One collector transition keeps the page inside the valid window. -/
theorem collectStep_bounds (tp p : ℤ) (cid : String)
    (h1 : 1 ≤ tp) (h2 : 0 ≤ p) (h3 : p ≤ tp - 1) :
    0 ≤ collectStep tp p cid ∧ collectStep tp p cid ≤ tp - 1 := by
  simp only [collectStep]
  split_ifs <;> omega

/-- Any sequence of collector transitions keeps the page inside the valid
window. -/
theorem foldl_collect_bounds (tp : ℤ) (h1 : 1 ≤ tp) :
    ∀ (ids : List String) (p : ℤ), 0 ≤ p → p ≤ tp - 1 →
      0 ≤ ids.foldl (collectStep tp) p ∧ ids.foldl (collectStep tp) p ≤ tp - 1 := by
  intro ids
  induction ids with
  | nil => intro p hp1 hp2; exact ⟨hp1, hp2⟩
  | cons c cs ih =>
    intro p hp1 hp2
    obtain ⟨hq1, hq2⟩ := collectStep_bounds tp p c h1 hp1 hp2
    exact ih (collectStep tp p c) hq1 hq2

/-- C3: with exactLengthSeconds set, the length filter accepts a record
exactly when its length is known and within 0.3 seconds of the requested
value; an unknown length is rejected.  In particular, against a requested
62 seconds, a length of 62.2 is accepted and 62.5 is rejected. -/
theorem c3_exact_length_tolerance :
    (∀ (e : ℚ) (ln : Option ℚ),
      exactLengthCheck (some e) ln = true ↔ ∃ l, ln = some l ∧ |l - e| ≤ 3 / 10) ∧
    exactLengthCheck (some 62) (some 62.2) = true ∧
    exactLengthCheck (some 62) (some 62.5) = false := by
  refine ⟨?_, ?_, ?_⟩
  · intro e ln
    cases ln with
    | none => simp [exactLengthCheck]
    | some l => simp [exactLengthCheck]
  · norm_num [exactLengthCheck, abs_le]
  · norm_num [exactLengthCheck, lt_abs]

/-- C4: the response body with the candidate list nested two levels deep
under payload.levels is NOT located by the shape probing: the generic
fallback only inspects the direct Object.values of the body, none of which
is an array here, so the client returns the empty list (the code comment
announces a search for arrays anywhere in the object, and the spec
scenario relies on it, but the implementation is shallow). -/
theorem c4_nested_payload_list_not_found :
    locateList (JVal.obj [("status", JVal.str "ok"),
        ("payload", JVal.obj [("levels", JVal.arr [JVal.num 1])])]) = .ok [] := rfl

/-- C5: the page count is max(1, ceil(L / pageSize)) with pageSize 5, and
starting from page 0 every sequence of collector transitions stays inside
[0, totalPages - 1]; a prev transition on page 0 stays at 0, a next
transition on the last page stays on the last page. -/
theorem c5_pagination_invariant (L : ℕ) (ids : List String) :
    ((totalPages L : ℤ) = max 1 ⌈(L : ℚ) / (perPage : ℚ)⌉) ∧
    (0 ≤ ids.foldl (collectStep (totalPages L)) 0 ∧
      ids.foldl (collectStep (totalPages L)) 0 ≤ (totalPages L : ℤ) - 1) ∧
    collectStep (totalPages L) 0 "prev_page" = 0 ∧
    collectStep (totalPages L) ((totalPages L : ℤ) - 1) "next_page"
      = (totalPages L : ℤ) - 1 := by
  have htp : 1 ≤ (totalPages L : ℤ) := by
    have : 1 ≤ totalPages L := Nat.le_max_left 1 _
    exact_mod_cast this
  refine ⟨?_, ?_, ?_, ?_⟩
  · rw [ceil_div_perPage]
    have : totalPages L = max 1 ((L + perPage - 1) / perPage) := rfl
    rw [this]
    push_cast [Nat.cast_max]
    rfl
  · exact foldl_collect_bounds (totalPages L) htp ids 0 le_rfl (by omega)
  · have hne : ("prev_page" : String) ≠ "next_page" := by decide
    simp [collectStep, hne]
  · have hne : ("next_page" : String) ≠ "prev_page" := by decide
    simp [collectStep, hne]

/-- C6: a navigation attempt by any user other than the originating
requester leaves the page unchanged and is answered with the ephemeral
rejection notice; conversely, a changed page can only come from the owner. -/
theorem c6_owner_only_navigation (ownerId userId : String) (tp page : ℤ)
    (customId : String) :
    (userId ≠ ownerId →
      handleCollect ownerId userId tp page customId = (page, .notForYou)) ∧
    ((handleCollect ownerId userId tp page customId).1 ≠ page →
      userId = ownerId) := by
  constructor
  · intro h
    simp [handleCollect, h]
  · intro h
    by_contra hne
    exact h (by simp [handleCollect, hne])

/-- C6 witness: a concrete non-owner attempt is rejected with the notice
and the page survives unchanged. -/
theorem c6_owner_only_navigation_witness :
    handleCollect "owner" "intruder" 4 2 "next_page" = (2, .notForYou) :=
  (c6_owner_only_navigation "owner" "intruder" 4 2 "next_page").1 (by decide)

/-- C7: a candidate whose detail fetch fails is skipped, and the pipeline
over a candidate list containing such a failing candidate returns exactly
the matches of the remaining candidates; no failure aborts the batch. -/
theorem c7_per_candidate_failure_isolation :
    (∀ (opts : FilterSpec) (fetch : JVal → Except Unit JVal) (item : JVal),
      (∀ v, fetch v = .error ()) → processItem opts fetch item = none) ∧
    (∀ (opts : FilterSpec) (fetch : JVal → Except Unit JVal)
        (pre post : List JVal) (bad : JVal),
      processItem opts fetch bad = none →
        findLevelsWithFilters opts fetch (pre ++ bad :: post)
          = findLevelsWithFilters opts fetch (pre ++ post)) := by
  constructor
  · intro opts fetch item hf
    rw [processItem, processItemE]
    cases h1 : extractLevelIdFromSearchItem item with
    | error e => simp
    | ok r =>
      cases r with
      | none => simp
      | some lid => simp [hf lid]
  · intro opts fetch pre post bad hbad
    rw [findLevels_eq_filterMap, findLevels_eq_filterMap]
    simp [List.filterMap_append, List.filterMap_cons, hbad]

/-- C7 witness: with an always-failing detail fetch, a concrete candidate
is skipped, and a batch containing it returns the matches of the batch
without it. -/
theorem c7_per_candidate_failure_isolation_witness :
    processItem {} (fun _ => Except.error ()) (JVal.obj [("id", JVal.num 1)]) = none ∧
    findLevelsWithFilters {} (fun _ => Except.error ())
        ([JVal.obj [("name", JVal.str "a")]] ++ JVal.obj [("id", JVal.num 1)] :: [])
      = findLevelsWithFilters {} (fun _ => Except.error ())
          ([JVal.obj [("name", JVal.str "a")]] ++ []) := by
  have h1 := c7_per_candidate_failure_isolation.1 {}
    (fun _ => Except.error ()) (JVal.obj [("id", JVal.num 1)]) (fun _ => rfl)
  exact ⟨h1, c7_per_candidate_failure_isolation.2 {} (fun _ => Except.error ())
    [JVal.obj [("name", JVal.str "a")]] [] (JVal.obj [("id", JVal.num 1)]) h1⟩

/-- Strict equality of a JavaScript number with a finite one holds exactly
for the same finite number. -/
theorem jnStrictEq_fin {n : JNum} {k : ℚ} :
    jnStrictEq n (.fin k) = true ↔ n = .fin k := by
  cases n <;> simp [jnStrictEq]

/-- C1: with a non-empty requiredObjectIds set, every match returned by the
pipeline carries a detail payload from which a constituent-object array was
obtained, and every requested id matches some element of that array; a
record without such an array never appears in the results. -/
theorem c1_required_ids_superset (opts : FilterSpec)
    (fetch : JVal → Except Unit JVal) (items : List JVal) (m : MatchRec)
    (hne : opts.requiredObjectIds ≠ [])
    (hm : m ∈ findLevelsWithFilters opts fetch items) :
    ∃ xs, tryGetList m.detail objKeys = .ok (some (.arr xs)) ∧
      ∀ req ∈ opts.requiredObjectIds, ∃ o ∈ xs, objIdMatches req o = .ok true := by
  rw [findLevels_eq_filterMap] at hm
  obtain ⟨item, hitem, hp⟩ := List.mem_filterMap.mp hm
  obtain ⟨lid, detail, oc, ls, _, _, _, _, _, h6, _, _, hm9⟩ := processItem_some hp
  obtain ⟨xs, hxs, hall⟩ := requiredIdsCheck_ok_true hne h6
  subst hm9
  exact ⟨xs, hxs, hall⟩

/-- C1 witness: a concrete pipeline run with requiredObjectIds [1] returns
one match, and the theorem yields its constituent-object array containing a
matching element for the requested id. -/
theorem c1_required_ids_superset_witness :
    ∃ xs, tryGetList (JVal.obj [("objects", JVal.arr [JVal.obj [("id", JVal.num 1)]])])
        objKeys = .ok (some (.arr xs)) ∧
      ∀ req ∈ ({ requiredObjectIds := [1] } : FilterSpec).requiredObjectIds,
        ∃ o ∈ xs, objIdMatches req o = .ok true :=
  c1_required_ids_superset { requiredObjectIds := [1] }
    (fun _ => .ok (JVal.obj [("objects", JVal.arr [JVal.obj [("id", JVal.num 1)]])]))
    [JVal.obj [("id", JVal.num 7)]]
    ⟨JVal.num 7, JVal.obj [("id", JVal.num 7)],
      JVal.obj [("objects", JVal.arr [JVal.obj [("id", JVal.num 1)]])],
      some JNum.nan, none⟩
    (by simp)
    (by exact List.mem_singleton.mpr rfl)

/-- C2: with exactObjects set and a known (finite) count, the object-count
filter passes exactly on equality; with exactObjects unset and a known
count, it passes exactly when the count lies between minObjects and
maxObjects (an absent maxObjects models the Infinity default and never
rejects); an unknown count always passes; consequently every match the
pipeline returns under exactObjects = k carries objectCount k or an
unknown objectCount. -/
theorem c2_object_count_check :
    (∀ (k mino : ℚ) (maxo : Option ℚ) (c : ℚ),
      objectCountCheck (some k) mino maxo (some (.fin c)) = true ↔ c = k) ∧
    (∀ (mino : ℚ) (maxo : Option ℚ) (c : ℚ),
      objectCountCheck none mino maxo (some (.fin c)) = true ↔
        (mino ≤ c ∧ ∀ mx, maxo = some mx → c ≤ mx)) ∧
    (∀ (e : Option ℚ) (mino : ℚ) (maxo : Option ℚ),
      objectCountCheck e mino maxo none = true) ∧
    (∀ (opts : FilterSpec) (fetch : JVal → Except Unit JVal)
        (items : List JVal) (m : MatchRec) (k : ℚ),
      opts.exactObjects = some k →
      m ∈ findLevelsWithFilters opts fetch items →
      m.objectCount = some (.fin k) ∨ m.objectCount = none) := by
  refine ⟨?_, ?_, ?_, ?_⟩
  · intro k mino maxo c
    simp [objectCountCheck, jnStrictEq]
  · intro mino maxo c
    cases maxo with
    | none => simp [objectCountCheck, jnLt, jnGt, not_lt]
    | some mx => simp [objectCountCheck, jnLt, jnGt, not_lt]
  · intro e mino maxo
    cases e <;> rfl
  · intro opts fetch items m k hk hm
    rw [findLevels_eq_filterMap] at hm
    obtain ⟨item, hitem, hp⟩ := List.mem_filterMap.mp hm
    obtain ⟨lid, detail, oc, ls, _, _, _, _, h5, _, _, _, hm9⟩ := processItem_some hp
    rw [hk] at h5
    subst hm9
    cases hnc : normalizeCount oc with
    | none => exact Or.inr rfl
    | some n =>
      rw [hnc] at h5
      rw [objectCountCheck] at h5
      have hfin := jnStrictEq_fin.mp h5
      subst hfin
      exact Or.inl rfl

/-- C2 witness: a concrete pipeline run with exactObjects 10 against a
payload whose objects field is 10 returns the match with objectCount 10. -/
theorem c2_object_count_check_witness :
    (⟨JVal.num 1, JVal.obj [("id", JVal.num 1)],
        JVal.obj [("objects", JVal.num 10)], some (JNum.fin 10), none⟩ :
      MatchRec).objectCount = some (.fin 10) ∨
    (⟨JVal.num 1, JVal.obj [("id", JVal.num 1)],
        JVal.obj [("objects", JVal.num 10)], some (JNum.fin 10), none⟩ :
      MatchRec).objectCount = none :=
  c2_object_count_check.2.2.2 { exactObjects := some 10 }
    (fun _ => .ok (JVal.obj [("objects", JVal.num 10)]))
    [JVal.obj [("id", JVal.num 1)]] _ 10 rfl
    (by exact List.mem_singleton.mpr rfl)

/-- An object-like value is truthy. -/
theorem objLike_not_falsy {v : JVal} (h : objLike v = true) : jFalsy v = false := by
  cases v <;> simp_all [objLike, jFalsy]

/-- The empty nested walk always succeeds. -/
theorem dotWalk_nil_ok (v : JVal) : ∃ r, dotWalk v [] = .ok r := by
  cases v <;> exact ⟨_, rfl⟩

/-- A one-part nested walk on an object-like receiver always succeeds. -/
theorem dotWalk_single_ok (obj : JVal) (hobj : objLike obj = true) (k : String) :
    ∃ r, dotWalk obj [k] = .ok r := by
  have hjf := objLike_not_falsy hobj
  rw [dotWalk]
  simp only [hjf, hobj, Bool.true_eq_false, if_false, Bool.false_eq_true]
  cases hgp : jGetProp obj k with
  | none => exact ⟨none, by simp⟩
  | some v =>
    obtain ⟨r, hr⟩ := dotWalk_nil_ok v
    exact ⟨r, by simp [hr]⟩

/-- On an object-like receiver, tryGet succeeds whenever every nested walk
of its keys succeeds (one-part walks always do). -/
theorem tryGetList_ok_of_walks (obj : JVal) (hobj : objLike obj = true) :
    ∀ (keys : List String),
      (∀ k ∈ keys, ∃ r, dotWalk obj (dotParts k) = .ok r) →
      ∃ r, tryGetList obj keys = .ok r := by
  intro keys
  induction keys with
  | nil => intro _; exact ⟨none, rfl⟩
  | cons k ks ih =>
    intro hdw
    have hjf := objLike_not_falsy hobj
    have hstep : ∃ s, tryGetStep obj k = .ok s := by
      rw [tryGetStep]
      simp only [hobj, Bool.true_eq_false, if_false]
      cases hgp : jGetProp obj k with
      | none =>
        by_cases hd : hasDot k
        · simpa [hd] using hdw k (List.mem_cons_self k ks)
        · exact ⟨none, by simp [hd]⟩
      | some v =>
        cases v with
        | null =>
          by_cases hd : hasDot k
          · simpa [hd] using hdw k (List.mem_cons_self k ks)
          · exact ⟨none, by simp [hd]⟩
        | bool b => exact ⟨some (.bool b), by simp⟩
        | num q => exact ⟨some (.num q), by simp⟩
        | str s => exact ⟨some (.str s), by simp⟩
        | arr xs => exact ⟨some (.arr xs), by simp⟩
        | obj fs => exact ⟨some (.obj fs), by simp⟩
    obtain ⟨s, hs⟩ := hstep
    cases s with
    | some v => exact ⟨some v, by rw [tryGetList]; simp [hjf, hs]⟩
    | none =>
      obtain ⟨r, hr⟩ := ih (fun k2 h2 => hdw k2 (List.mem_cons_of_mem _ h2))
      exact ⟨r, by rw [tryGetList]; simp [hjf, hs, hr]⟩

/-- On an object-like receiver, the length-extraction loop succeeds
whenever every nested walk of its keys succeeds. -/
theorem lengthLoop_ok (obj : JVal) (hobj : objLike obj = true) :
    ∀ (ks : List String),
      (∀ k ∈ ks, ∃ r, dotWalk obj (dotParts k) = .ok r) →
      ∃ out, lengthLoop obj ks = .ok out := by
  intro ks
  induction ks with
  | nil => intro _; exact ⟨none, rfl⟩
  | cons c cs ih =>
    intro hdw
    obtain ⟨r, hr⟩ := tryGetList_ok_of_walks obj hobj [c]
      (by intro k hk
          rcases List.mem_singleton.mp hk with rfl
          exact hdw _ (List.mem_cons_self _ _))
    have hrest := ih (fun k2 h2 => hdw k2 (List.mem_cons_of_mem _ h2))
    cases r with
    | none =>
      obtain ⟨out, hout⟩ := hrest
      exact ⟨out, by rw [lengthLoop, hr]; exact hout⟩
    | some v =>
      cases v with
      | num q => exact ⟨some q, by rw [lengthLoop, hr]⟩
      | str s =>
        cases hfd : firstDecimal s.data with
        | some q => exact ⟨some q, by rw [lengthLoop, hr]; simp [hfd]⟩
        | none =>
          obtain ⟨out, hout⟩ := hrest
          exact ⟨out, by rw [lengthLoop, hr]; simp [hfd, hout]⟩
      | null =>
        obtain ⟨out, hout⟩ := hrest
        exact ⟨out, by rw [lengthLoop, hr]; exact hout⟩
      | bool b =>
        obtain ⟨out, hout⟩ := hrest
        exact ⟨out, by rw [lengthLoop, hr]; exact hout⟩
      | arr xs =>
        obtain ⟨out, hout⟩ := hrest
        exact ⟨out, by rw [lengthLoop, hr]; exact hout⟩
      | obj fs =>
        obtain ⟨out, hout⟩ := hrest
        exact ⟨out, by rw [lengthLoop, hr]; exact hout⟩

/-- C9 counterexample: the extraction helpers DO raise.  The in operator
throws a TypeError on a truthy primitive record, and on a truthy primitive
met along a dotted key-path, so tryGet and the three extractors built on it
are not total on arbitrary JSON shapes (the errors below embed the thrown
TypeError). -/
theorem c9_extractors_raise_counterexample :
    extractObjectCount (JVal.num 5) = .error () ∧
    extractLengthSeconds (JVal.num 5) = .error () ∧
    extractLevelIdFromSearchItem (JVal.str "x") = .error () ∧
    tryGetList (JVal.obj [("metadata", JVal.num 7)]) ["metadata.objects"] = .error () :=
  ⟨rfl, rfl, rfl, rfl⟩

/-- C9 amended: the extraction helpers terminate and return a value or
null without raising, provided the record is falsy (skipped), or is an
object or array whose dotted-path probes never step through a truthy
primitive; a truthy primitive record makes any probe raise the embedded
TypeError. -/
theorem c9_extractors_never_raise_amended :
    (∀ (obj : JVal) (keys : List String), jFalsy obj = true →
      tryGetList obj keys = .ok none) ∧
    (∀ (obj : JVal) (k : String) (keys : List String),
      jFalsy obj = false → objLike obj = false →
      tryGetList obj (k :: keys) = .error ()) ∧
    (∀ (obj : JVal) (keys : List String), objLike obj = true →
      (∀ k ∈ keys, ∃ r, dotWalk obj (dotParts k) = .ok r) →
      ∃ r, tryGetList obj keys = .ok r) ∧
    (∀ obj, objLike obj = true →
      (∃ r1, dotWalk obj (dotParts "metadata.objects") = .ok r1) →
      (∃ r2, dotWalk obj (dotParts "meta.objects") = .ok r2) →
      ∃ out, extractObjectCount obj = .ok out) ∧
    (∀ obj, objLike obj = true →
      ∃ out, extractLevelIdFromSearchItem obj = .ok out) ∧
    (∀ obj, objLike obj = true →
      (∀ k ∈ lenKeys, ∃ r, dotWalk obj (dotParts k) = .ok r) →
      ∃ out, extractLengthSeconds obj = .ok out) := by
  have hfalsy : ∀ (obj : JVal) (keys : List String), jFalsy obj = true →
      tryGetList obj keys = .ok none := by
    intro obj keys h
    induction keys with
    | nil => rfl
    | cons k ks ih => rw [tryGetList]; simp [h, ih]
  have hraise : ∀ (obj : JVal) (k : String) (keys : List String),
      jFalsy obj = false → objLike obj = false →
      tryGetList obj (k :: keys) = .error () := by
    intro obj k keys h1 h2
    rw [tryGetList]
    simp [h1, tryGetStep, h2]
  refine ⟨hfalsy, hraise,
    fun obj keys hobj hdw => tryGetList_ok_of_walks obj hobj keys hdw, ?oc, ?lid, ?len⟩
  case oc =>
    intro obj hobj h1 h2
    obtain ⟨r, hr⟩ := tryGetList_ok_of_walks obj hobj objCountKeys (by
      intro k hk
      simp only [objCountKeys, List.mem_cons, List.mem_singleton] at hk
      rcases hk with rfl | rfl | rfl | rfl | rfl | rfl | hk
      · exact dotWalk_single_ok obj hobj "objects"
      · exact dotWalk_single_ok obj hobj "object_count"
      · exact dotWalk_single_ok obj hobj "objectCount"
      · exact dotWalk_single_ok obj hobj "cache_objects"
      · exact dotWalk_single_ok obj hobj "cache_object_count"
      · exact h1
      · rcases hk with rfl | hk2
        · exact h2
        · cases hk2)
    exact ⟨r, hr⟩
  case lid =>
    intro obj hobj
    obtain ⟨r, hr⟩ := tryGetList_ok_of_walks obj hobj levelIdKeys (by
      intro k hk
      simp only [levelIdKeys, List.mem_cons, List.mem_singleton] at hk
      rcases hk with rfl | rfl | rfl | rfl | rfl | rfl | hk
      · exact dotWalk_single_ok obj hobj "online_id"
      · exact dotWalk_single_ok obj hobj "id"
      · exact dotWalk_single_ok obj hobj "level_id"
      · exact dotWalk_single_ok obj hobj "levelID"
      · exact dotWalk_single_ok obj hobj "levelId"
      · exact dotWalk_single_ok obj hobj "onlineId"
      · cases hk)
    cases r with
    | none => exact ⟨none, by rw [extractLevelIdFromSearchItem, hr]⟩
    | some v =>
      exact ⟨if jFalsy v then none else some v,
        by rw [extractLevelIdFromSearchItem, hr]⟩
  case len =>
    intro obj hobj hdw
    exact lengthLoop_ok obj hobj lenKeys hdw

/-- C9 amended witness: a concrete well-shaped record goes through the
extractors without raising. -/
theorem c9_extractors_never_raise_amended_witness :
    (∃ out, extractObjectCount (JVal.obj [("objects", JVal.num 42)]) = .ok out) ∧
    (∃ out, extractLevelIdFromSearchItem (JVal.obj [("id", JVal.num 9)]) = .ok out) :=
  ⟨c9_extractors_never_raise_amended.2.2.2.1 (JVal.obj [("objects", JVal.num 42)])
      rfl ⟨none, rfl⟩ ⟨none, rfl⟩,
    c9_extractors_never_raise_amended.2.2.2.2.1 (JVal.obj [("id", JVal.num 9)]) rfl⟩

/-- A non-demon, non-auto label with a truthy numeric difficulty code
passes the difficulty filter exactly on equality with its mapped code. -/
theorem difficultyCheck_label_code (lvlObj : JVal) (d : ℚ) (w : String) (k : ℚ)
    (h : tryGetList lvlObj diffKeys = .ok (some (.num d))) (hd : d ≠ 0)
    (h1 : ¬ (w = "")) (h2 : lowerStr w = w) (h3 : ¬ (w = "auto"))
    (h4 : ¬ (w = "demon")) (h5 : diffMap w = some k) :
    difficultyCheck (some w) lvlObj = .ok (decide (d = k)) := by
  have hjf : jFalsy (JVal.num d) = false := by simp [jFalsy, hd]
  rw [difficultyCheck, if_neg h1, h]
  simp only [hjf, Bool.false_eq_true, if_false, h2, jsToNumberJ]
  rw [if_neg h3, if_neg h4]
  simp only [h5]
  by_cases hq : d = k <;> simp [jnStrictEq, hq]

/-- The demon label with a truthy numeric difficulty code passes the
difficulty filter exactly when the code is at least 6. -/
theorem difficultyCheck_demon_code (lvlObj : JVal) (d : ℚ)
    (h : tryGetList lvlObj diffKeys = .ok (some (.num d))) (hd : d ≠ 0) :
    difficultyCheck (some "demon") lvlObj = .ok (decide (6 ≤ d)) := by
  have hjf : jFalsy (JVal.num d) = false := by simp [jFalsy, hd]
  have h1 : ¬ (("demon" : String) = "") := by decide
  have h2 : lowerStr "demon" = "demon" := rfl
  have h3 : ¬ (("demon" : String) = "auto") := by decide
  rw [difficultyCheck, if_neg h1, h]
  simp only [hjf, Bool.false_eq_true, if_false, h2, jsToNumberJ]
  rw [if_neg h3]
  simp only [eq_self_iff_true, if_true]
  by_cases hq : 6 ≤ d <;> simp [jnGe, hq]

/-- With an absent or zero numeric difficulty code, a non-demon, non-auto
label passes the difficulty filter permissively. -/
theorem difficultyCheck_label_nocode (lvlObj : JVal) (w : String)
    (h : tryGetList lvlObj diffKeys = .ok none ∨
      tryGetList lvlObj diffKeys = .ok (some (.num 0)))
    (h1 : ¬ (w = "")) (h2 : lowerStr w = w) (h3 : ¬ (w = "auto"))
    (h4 : ¬ (w = "demon")) :
    difficultyCheck (some w) lvlObj = .ok true := by
  rcases h with h | h
  · rw [difficultyCheck, if_neg h1, h]
    simp only [h2]
    rw [if_neg h3, if_neg h4]
  · rw [difficultyCheck, if_neg h1, h]
    have hjf : jFalsy (JVal.num 0) = true := by simp [jFalsy]
    simp only [hjf, if_true, h2]
    rw [if_neg h3, if_neg h4]

/-- With an absent or zero numeric difficulty code and a non-empty textual
difficulty, the demon label passes the difficulty filter exactly when the
lowered text contains the demon marker. -/
theorem difficultyCheck_demon_nocode_text (lvlObj : JVal) (t : String)
    (h : tryGetList lvlObj diffKeys = .ok none ∨
      tryGetList lvlObj diffKeys = .ok (some (.num 0)))
    (ht : tryGetList lvlObj diffTextKeys = .ok (some (.str t))) (hne : t ≠ "") :
    difficultyCheck (some "demon") lvlObj = .ok (listHasDem (lowerStr t).data) := by
  have h1 : ¬ (("demon" : String) = "") := by decide
  have h2 : lowerStr "demon" = "demon" := rfl
  have h3 : ¬ (("demon" : String) = "auto") := by decide
  have hdata : t.data.isEmpty = false := by
    cases t with
    | mk l =>
      cases l with
      | nil => exact absurd rfl hne
      | cons a as => rfl
  rcases h with h | h
  · rw [difficultyCheck, if_neg h1, h]
    simp only [h2]
    rw [if_neg h3]
    simp only [eq_self_iff_true, if_true]
    rw [ht]
    simp [jTruthy, jFalsy, hdata, jTextHasDem]
  · rw [difficultyCheck, if_neg h1, h]
    have hjf : jFalsy (JVal.num 0) = true := by simp [jFalsy]
    simp only [hjf, if_true, h2]
    rw [if_neg h3]
    rw [ht]
    simp [jTruthy, jFalsy, hdata, jTextHasDem]

/-- With an absent or zero numeric difficulty code and no textual
difficulty, the demon label passes the difficulty filter permissively. -/
theorem difficultyCheck_demon_nocode_notext (lvlObj : JVal)
    (h : tryGetList lvlObj diffKeys = .ok none ∨
      tryGetList lvlObj diffKeys = .ok (some (.num 0)))
    (ht : tryGetList lvlObj diffTextKeys = .ok none) :
    difficultyCheck (some "demon") lvlObj = .ok true := by
  have h1 : ¬ (("demon" : String) = "") := by decide
  have h2 : lowerStr "demon" = "demon" := rfl
  have h3 : ¬ (("demon" : String) = "auto") := by decide
  rcases h with h | h
  · rw [difficultyCheck, if_neg h1, h]
    simp only [h2]
    rw [if_neg h3]
    simp only [eq_self_iff_true, if_true]
    rw [ht]
  · rw [difficultyCheck, if_neg h1, h]
    have hjf : jFalsy (JVal.num 0) = true := by simp [jFalsy]
    simp only [hjf, if_true, h2]
    rw [if_neg h3]
    rw [ht]

/-- C8 counterexample: a record carrying the known numeric difficulty code
0 with the requested label easy (mapped code 1) is ACCEPTED by the
difficulty filter, because the code reads the extracted value through a
truthiness test and treats the falsy code 0 as unavailable; under the claim
a known non-matching code must reject. -/
theorem c8_difficulty_zero_code_counterexample :
    tryGetList (JVal.obj [("difficulty", JVal.num 0)]) diffKeys
      = .ok (some (JVal.num 0)) ∧
    difficultyCheck (some "easy") (JVal.obj [("difficulty", JVal.num 0)])
      = .ok true :=
  ⟨rfl, rfl⟩

/-- C8 amended: the difficulty filter behaves as claimed once a known code
means a truthy (nonzero) extracted numeric difficulty: with a nonzero code
d, the labels easy, normal, hard, harder, insane pass exactly when d equals
1, 2, 3, 4, 5 respectively, and demon passes exactly when d is at least 6;
with the code absent or zero, the five labels pass permissively, and demon
falls back to the textual difficulty, passing exactly when an available
non-empty text contains the marker dem, and permissively when no text is
available. -/
theorem c8_difficulty_check_amended :
    (∀ (lvlObj : JVal) (d : ℚ),
      tryGetList lvlObj diffKeys = .ok (some (.num d)) → d ≠ 0 →
        difficultyCheck (some "easy") lvlObj = .ok (decide (d = 1)) ∧
        difficultyCheck (some "normal") lvlObj = .ok (decide (d = 2)) ∧
        difficultyCheck (some "hard") lvlObj = .ok (decide (d = 3)) ∧
        difficultyCheck (some "harder") lvlObj = .ok (decide (d = 4)) ∧
        difficultyCheck (some "insane") lvlObj = .ok (decide (d = 5)) ∧
        difficultyCheck (some "demon") lvlObj = .ok (decide (6 ≤ d))) ∧
    (∀ (lvlObj : JVal),
      (tryGetList lvlObj diffKeys = .ok none ∨
        tryGetList lvlObj diffKeys = .ok (some (.num 0))) →
        (difficultyCheck (some "easy") lvlObj = .ok true ∧
          difficultyCheck (some "normal") lvlObj = .ok true ∧
          difficultyCheck (some "hard") lvlObj = .ok true ∧
          difficultyCheck (some "harder") lvlObj = .ok true ∧
          difficultyCheck (some "insane") lvlObj = .ok true) ∧
        (∀ (t : String),
          tryGetList lvlObj diffTextKeys = .ok (some (.str t)) → t ≠ "" →
          difficultyCheck (some "demon") lvlObj
            = .ok (listHasDem (lowerStr t).data)) ∧
        (tryGetList lvlObj diffTextKeys = .ok none →
          difficultyCheck (some "demon") lvlObj = .ok true)) := by
  constructor
  · intro lvlObj d h hd
    refine ⟨?_, ?_, ?_, ?_, ?_, ?_⟩
    · exact difficultyCheck_label_code lvlObj d "easy" 1 h hd
        (by decide) rfl (by decide) (by decide) rfl
    · exact difficultyCheck_label_code lvlObj d "normal" 2 h hd
        (by decide) rfl (by decide) (by decide) rfl
    · exact difficultyCheck_label_code lvlObj d "hard" 3 h hd
        (by decide) rfl (by decide) (by decide) rfl
    · exact difficultyCheck_label_code lvlObj d "harder" 4 h hd
        (by decide) rfl (by decide) (by decide) rfl
    · exact difficultyCheck_label_code lvlObj d "insane" 5 h hd
        (by decide) rfl (by decide) (by decide) rfl
    · exact difficultyCheck_demon_code lvlObj d h hd
  · intro lvlObj h
    refine ⟨⟨?_, ?_, ?_, ?_, ?_⟩, ?_, ?_⟩
    · exact difficultyCheck_label_nocode lvlObj "easy" h
        (by decide) rfl (by decide) (by decide)
    · exact difficultyCheck_label_nocode lvlObj "normal" h
        (by decide) rfl (by decide) (by decide)
    · exact difficultyCheck_label_nocode lvlObj "hard" h
        (by decide) rfl (by decide) (by decide)
    · exact difficultyCheck_label_nocode lvlObj "harder" h
        (by decide) rfl (by decide) (by decide)
    · exact difficultyCheck_label_nocode lvlObj "insane" h
        (by decide) rfl (by decide) (by decide)
    · intro t ht hne
      exact difficultyCheck_demon_nocode_text lvlObj t h ht hne
    · intro ht
      exact difficultyCheck_demon_nocode_notext lvlObj h ht

/-- C8 amended witness: a record with numeric difficulty 3 passes the hard
label and fails the demon label; a record with text demon and no code
passes the demon label. -/
theorem c8_difficulty_check_amended_witness :
    difficultyCheck (some "hard") (JVal.obj [("difficulty", JVal.num 3)])
      = .ok (decide ((3 : ℚ) = 3)) ∧
    difficultyCheck (some "demon") (JVal.obj [("difficulty", JVal.num 3)])
      = .ok (decide (6 ≤ (3 : ℚ))) ∧
    difficultyCheck (some "demon")
        (JVal.obj [("difficulty_text", JVal.str "Easy Demon")])
      = .ok (listHasDem (lowerStr "Easy Demon").data) :=
  ⟨((c8_difficulty_check_amended.1 (JVal.obj [("difficulty", JVal.num 3)]) 3
      rfl (by norm_num)).2.2.1),
    ((c8_difficulty_check_amended.1 (JVal.obj [("difficulty", JVal.num 3)]) 3
      rfl (by norm_num)).2.2.2.2.2),
    ((c8_difficulty_check_amended.2
        (JVal.obj [("difficulty_text", JVal.str "Easy Demon")])
        (Or.inl rfl)).2.1 "Easy Demon" rfl (by decide))⟩

/-- C10: parseIdList splits on commas, trims, drops empty tokens and keeps
only tokens whose numeric coercion is finite, silently dropping the rest:
every produced id comes from a non-empty trimmed token that coerces to it.
A wholly non-numeric option such as a,b therefore yields the empty id list,
the empty list makes the required-object-ids filter pass unconditionally,
and a pipeline run with it accepts a level carrying no object data at all
instead of erroring or rejecting everything. -/
theorem c10_parse_id_list :
    (∀ (raw : String) (q : ℚ), q ∈ parseIdList raw →
      ∃ t ∈ (splitOnChar ',' raw.data).map trimWs,
        t.isEmpty = false ∧ jsStringToNumberL t = .fin q) ∧
    parseIdList "a,b" = [] ∧
    (∀ lvlObj, requiredIdsCheck [] lvlObj = .ok true) ∧
    processItem { requiredObjectIds := parseIdList "a,b" }
        (fun _ => .ok (JVal.obj [])) (JVal.obj [("id", JVal.num 1)])
      = some ⟨JVal.num 1, JVal.obj [("id", JVal.num 1)], JVal.obj [], none, none⟩ := by
  refine ⟨?_, rfl, fun lvlObj => rfl, rfl⟩
  intro raw q hq
  rw [parseIdList] at hq
  by_cases hraw : raw = ""
  · rw [if_pos hraw] at hq
    cases hq
  · rw [if_neg hraw] at hq
    simp only [List.mem_filterMap, List.mem_map, List.mem_filter] at hq
    obtain ⟨n, ⟨t, ⟨ht, hne⟩, hn⟩, hmatch⟩ := hq
    cases n with
    | fin q2 =>
      have hq2 : q2 = q := by simpa using hmatch
      subst hq2
      refine ⟨t, ?_, by simpa using hne, hn⟩
      exact List.mem_map.mpr ht
    | nan => cases hmatch
    | posInf => cases hmatch
    | negInf => cases hmatch

/-- C10 witness: the option 3, a keeps exactly the numeric token 3, coming
from the non-empty trimmed token 3. -/
theorem c10_parse_id_list_witness :
    ∃ t ∈ (splitOnChar ',' ("3, a" : String).data).map trimWs,
      t.isEmpty = false ∧ jsStringToNumberL t = .fin 3 :=
  c10_parse_id_list.1 "3, a" 3 (by decide)
